import Mathlib

/-!
Verification development for the news ingestion and enrichment core.

The definitions below are a shallow embedding of the Python sources:
`src/ai_integration/ai_processor.py`, `src/parsers/base_parser.py`,
`src/parsers/html_parser.py`, `src/parsers/parser_manager.py`,
`src/scheduler/task_scheduler.py`, `src/config/settings.py` and
`src/database/models.py`.  Pure functions become Lean functions, stateful
methods are explicit state passing, logging becomes an explicit event
trace, and fallible external calls (AI providers) are oracles given as
function arguments.  Cryptographic digests (md5 of title plus content
snippet, sha256 of a URL) are modelled by an injective encoding, because
the code only ever compares digests for equality.
-/

set_option maxHeartbeats 1000000
set_option maxRecDepth 8000

namespace NewsCore

/-! ### AI enrichment model (src/ai_integration/ai_processor.py) -/

abbrev ProviderName := String

/-- Provider priority order fixed in `AIManager.__init__`
(DeepSeek first, then Claude, GigaChat, OpenAI). -/
def priority_order : List ProviderName := ["deepseek", "claude", "gigachat", "openai"]

/-- Category table: the keys of `settings.CATEGORIES` in `config/settings.py`. -/
def categories : List String :=
  ["Политика", "Экономика", "Технологии", "Спорт", "Культура",
   "Наука", "Здоровье", "Общество", "Мир", "Общие новости"]

/-- Default category used when an AI provider returns an unknown one. -/
def default_category : String := "Общие новости"

/-- `settings.MAX_TITLE_LENGTH`. -/
def MAX_TITLE_LENGTH : Nat := 100

/-- `settings.MAX_CONTENT_LENGTH`. -/
def MAX_CONTENT_LENGTH : Nat := 1000

/-- The dictionary an AI provider returns from `process_news`.
Each field is `none` when the key is absent from the dict. -/
structure AIResult where
  title : Option String
  content : Option String
  category : Option String
  emoji : Option String
  deriving DecidableEq, Repr

/-- The required-field test of `AIManager._validate_ai_result`: a field
fails when the key is absent or its value is falsy (the empty string). -/
def fieldOk : Option String → Bool
  | none => false
  | some s => !s.isEmpty

/-- Length capping from `AIManager._validate_ai_result`: a value longer
than the cap is cut to the cap and an ellipsis is appended. -/
def truncateWithEllipsis (maxLen : Nat) (s : String) : String :=
  if s.length > maxLen then s.take maxLen ++ "..." else s

/-- `AIManager._validate_ai_result`.  Returns `none` when a required field
is missing or empty; otherwise returns the result after the in-place
fixups the Python code performs: an unknown category is coerced to the
default category, and over-long title/content are truncated with an
ellipsis. -/
def validate_ai_result (r : AIResult) : Option AIResult :=
  if fieldOk r.title && fieldOk r.content && fieldOk r.category then
    let cat := r.category.getD ""
    some { title := some (truncateWithEllipsis MAX_TITLE_LENGTH (r.title.getD ""))
           content := some (truncateWithEllipsis MAX_CONTENT_LENGTH (r.content.getD ""))
           category := some (if categories.contains cat then cat else default_category)
           emoji := r.emoji }
  else
    none

/-- Behaviour of one provider call: `provider.process_news` either raises
an exception (transport error, vendor failure) or returns a dict. -/
inductive ProviderOutcome where
  | raises (err : String)
  | returns (r : AIResult)
  deriving DecidableEq, Repr

/-- One `log_ai_processing` event (the audit record of an enrichment
attempt).  Emitted events are collected as a trace. -/
structure AttemptLog where
  news_id : Nat
  provider : ProviderName
  success : Bool
  error : Option String
  deriving DecidableEq, Repr

/-- Return value of `AIManager.process_news_with_ai` together with its
observable side effects: the `log_ai_processing` events emitted and the
list of providers whose `process_news` was invoked, in call order. -/
structure AIOutcome where
  success : Bool
  result : Option AIResult
  provider : ProviderName
  logs : List AttemptLog
  attempted : List ProviderName
  deriving DecidableEq, Repr

/-- The provider loop of `AIManager.process_news_with_ai`: try each
provider in order; an exception is logged as a failure and iteration
continues; a returned dict that passes `_validate_ai_result` is logged
as a success and ends the loop; a returned dict that fails validation
only produces a warning (no `log_ai_processing` call) and iteration
continues. -/
def process_loop (news_id : Nat) (behavior : ProviderName → ProviderOutcome) :
    List ProviderName → AIOutcome
  | [] => ⟨false, none, "", [], []⟩
  | p :: rest =>
    match behavior p with
    | ProviderOutcome.raises err =>
      let o := process_loop news_id behavior rest
      { o with logs := ⟨news_id, p, false, some err⟩ :: o.logs, attempted := p :: o.attempted }
    | ProviderOutcome.returns r =>
      match validate_ai_result r with
      | some fixed => ⟨true, some fixed, p, [⟨news_id, p, true, none⟩], [p]⟩
      | none =>
        let o := process_loop news_id behavior rest
        { o with attempted := p :: o.attempted }

/-- The state an `AIManager` keeps after construction that the fallback
call reads: the availability-filtered provider list. -/
structure AIManagerState where
  available_providers : List ProviderName
  deriving DecidableEq, Repr

/-- The list comprehension in `AIManager.__init__` that builds
`available_providers`, instrumented with the trace of `is_available`
queries it performs (second component, in query order). -/
def init_scan (avail : ProviderName → Bool) :
    List ProviderName → List ProviderName × List ProviderName
  | [] => ([], [])
  | n :: rest =>
    let s := init_scan avail rest
    (if avail n then n :: s.fst else s.fst, n :: s.snd)

/-- `AIManager.__init__`: snapshot provider availability once over the
priority order. -/
def mkAIManager (avail : ProviderName → Bool) : AIManagerState :=
  ⟨(init_scan avail priority_order).fst⟩

/-- `AIManager.process_news_with_ai`.  When `settings.USE_AI_PROCESSING`
is off it returns `(False, {}, "")` immediately; otherwise it runs the
fallback loop over the availability snapshot taken at construction. -/
def process_news_with_ai (use_ai : Bool) (st : AIManagerState) (news_id : Nat)
    (behavior : ProviderName → ProviderOutcome) : AIOutcome :=
  if use_ai then process_loop news_id behavior st.available_providers
  else ⟨false, none, "", [], []⟩

/-- The branch condition of the provider loop: an attempt on `p` succeeds
exactly when `p` returns a dict that passes `_validate_ai_result`. -/
def attempt_succeeds (behavior : ProviderName → ProviderOutcome) (p : ProviderName) : Bool :=
  match behavior p with
  | ProviderOutcome.raises _ => false
  | ProviderOutcome.returns r => (validate_ai_result r).isSome

/-- The `log_ai_processing` event an attempt on `p` emits, if any: a
failure entry when the call raises, a success entry when the returned
dict validates, and no entry at all for a schema-invalid dict. -/
def log_of (behavior : ProviderName → ProviderOutcome) (news_id : Nat)
    (p : ProviderName) : Option AttemptLog :=
  match behavior p with
  | ProviderOutcome.raises err => some ⟨news_id, p, false, some err⟩
  | ProviderOutcome.returns r =>
    if (validate_ai_result r).isSome then some ⟨news_id, p, true, none⟩ else none

/-! ### Characterization lemmas for the provider loop -/

/-- The providers the loop attempts form a prefix of the list it was
given, so attempts follow the priority order. -/
theorem process_loop_attempted_prefix (news_id : Nat)
    (b : ProviderName → ProviderOutcome) (ps : List ProviderName) :
    ∃ rest, ps = (process_loop news_id b ps).attempted ++ rest := by
  induction ps with
  | nil => exact ⟨[], rfl⟩
  | cons p rest ih =>
    cases hb : b p with
    | raises err =>
      obtain ⟨t, ht⟩ := ih
      refine ⟨t, ?_⟩
      simp only [process_loop, hb]
      simpa using ht
    | returns r =>
      cases hv : validate_ai_result r with
      | some fixed =>
        refine ⟨rest, ?_⟩
        simp [process_loop, hb, hv]
      | none =>
        obtain ⟨t, ht⟩ := ih
        refine ⟨t, ?_⟩
        simp only [process_loop, hb, hv]
        simpa using ht

/-- The loop reports success exactly when some provider in the list
produces a schema-valid result. -/
theorem process_loop_success (news_id : Nat)
    (b : ProviderName → ProviderOutcome) (ps : List ProviderName) :
    (process_loop news_id b ps).success = ps.any (attempt_succeeds b) := by
  induction ps with
  | nil => simp [process_loop]
  | cons p rest ih =>
    cases hb : b p with
    | raises err =>
      simp only [process_loop, hb, List.any_cons, attempt_succeeds]
      simp [hb, ih]
    | returns r =>
      cases hv : validate_ai_result r with
      | some fixed =>
        simp only [process_loop, hb, hv, List.any_cons, attempt_succeeds]
        simp [hb, hv]
      | none =>
        simp only [process_loop, hb, hv, List.any_cons, attempt_succeeds]
        simp [hb, hv, ih]

/-- The log trace of a fallback call: exactly one failure entry per
attempted provider that raised, one success entry for the succeeding
provider, and no entry for a schema-invalid result. -/
theorem process_loop_logs (news_id : Nat)
    (b : ProviderName → ProviderOutcome) (ps : List ProviderName) :
    (process_loop news_id b ps).logs =
      (process_loop news_id b ps).attempted.filterMap (log_of b news_id) := by
  induction ps with
  | nil => simp [process_loop]
  | cons p rest ih =>
    cases hb : b p with
    | raises err =>
      simp only [process_loop, hb]
      simp only [List.filterMap_cons, log_of, hb]
      simpa using ih
    | returns r =>
      cases hv : validate_ai_result r with
      | some fixed =>
        simp only [process_loop, hb, hv]
        simp [List.filterMap_cons, log_of, hb, hv]
      | none =>
        simp only [process_loop, hb, hv]
        simp only [List.filterMap_cons, log_of, hb, hv]
        simpa using ih

/-- On success the returned provider id is the first provider of the
list whose attempt succeeds; on failure no provider in the list
succeeds. -/
theorem process_loop_find (news_id : Nat)
    (b : ProviderName → ProviderOutcome) (ps : List ProviderName) :
    ps.find? (fun p => attempt_succeeds b p) =
      (if (process_loop news_id b ps).success then
        some (process_loop news_id b ps).provider else none) := by
  induction ps with
  | nil => simp [process_loop]
  | cons p rest ih =>
    cases hb : b p with
    | raises err =>
      have hs : attempt_succeeds b p = false := by simp [attempt_succeeds, hb]
      simp only [process_loop, hb, List.find?_cons, hs]
      simpa using ih
    | returns r =>
      cases hv : validate_ai_result r with
      | some fixed =>
        have hs : attempt_succeeds b p = true := by simp [attempt_succeeds, hb, hv]
        simp [process_loop, hb, hv, List.find?_cons, hs]
      | none =>
        have hs : attempt_succeeds b p = false := by simp [attempt_succeeds, hb, hv]
        simp only [process_loop, hb, hv, List.find?_cons, hs]
        simpa using ih

/-- Shape of the attempted list: all the failing providers up to the
first success, followed by the succeeding provider when there is one.
In particular no later provider is attempted after the first success. -/
theorem process_loop_attempted_eq (news_id : Nat)
    (b : ProviderName → ProviderOutcome) (ps : List ProviderName) :
    (process_loop news_id b ps).attempted =
      ps.takeWhile (fun p => !attempt_succeeds b p) ++
        (if (process_loop news_id b ps).success then
          [(process_loop news_id b ps).provider] else []) := by
  induction ps with
  | nil => simp [process_loop]
  | cons p rest ih =>
    cases hb : b p with
    | raises err =>
      have hs : attempt_succeeds b p = false := by simp [attempt_succeeds, hb]
      simp only [process_loop, hb, List.takeWhile_cons, hs]
      simpa using ih
    | returns r =>
      cases hv : validate_ai_result r with
      | some fixed =>
        have hs : attempt_succeeds b p = true := by simp [attempt_succeeds, hb, hv]
        simp [process_loop, hb, hv, List.takeWhile_cons, hs]
      | none =>
        have hs : attempt_succeeds b p = false := by simp [attempt_succeeds, hb, hv]
        simp only [process_loop, hb, hv, List.takeWhile_cons, hs]
        simpa using ih

/-- On success the returned result is the validated fixup of the dict the
winning provider returned. -/
theorem process_loop_result_of_success (news_id : Nat)
    (b : ProviderName → ProviderOutcome) (ps : List ProviderName)
    (h : (process_loop news_id b ps).success = true) :
    ∃ r, b (process_loop news_id b ps).provider = ProviderOutcome.returns r ∧
      validate_ai_result r = (process_loop news_id b ps).result := by
  induction ps with
  | nil => simp [process_loop] at h
  | cons p rest ih =>
    cases hb : b p with
    | raises err =>
      simp only [process_loop, hb] at h ⊢
      exact ih h
    | returns r =>
      cases hv : validate_ai_result r with
      | some fixed =>
        refine ⟨r, ?_, ?_⟩ <;> simp [process_loop, hb, hv]
      | none =>
        simp only [process_loop, hb, hv] at h ⊢
        exact ih h

/-- The construction scan queries availability of every provider in the
given list, in list order, and of nothing else. -/
theorem init_scan_snd (avail : ProviderName → Bool) (ns : List ProviderName) :
    (init_scan avail ns).snd = ns := by
  induction ns with
  | nil => rfl
  | cons n rest ih => simp [init_scan, ih]

/-- The construction scan keeps exactly the available providers, in
order. -/
theorem init_scan_fst (avail : ProviderName → Bool) (ns : List ProviderName) :
    (init_scan avail ns).fst = ns.filter avail := by
  induction ns with
  | nil => rfl
  | cons n rest ih =>
    cases ha : avail n <;> simp [init_scan, List.filter_cons, ha, ih]

/-- The provider list a manager snapshots at construction. -/
theorem mkAIManager_available (avail : ProviderName → Bool) :
    (mkAIManager avail).available_providers = priority_order.filter avail := by
  simp [mkAIManager, init_scan_fst]

/-- A list all of whose elements satisfy the takeWhile predicate is taken
whole. -/
theorem takeWhile_of_all {α : Type} (q : α → Bool) (l : List α)
    (h : l.all (fun a => !q a) = true) :
    l.takeWhile (fun a => !q a) = l := by
  induction l with
  | nil => rfl
  | cons a rest ih =>
    simp only [List.all_cons, Bool.and_eq_true] at h
    simp [List.takeWhile_cons, h.1, ih h.2]

/-! ### Claim C1: provider fallback with per-failure logging -/

/-- Availability oracle for the C1 counterexample: only DeepSeek is
configured. -/
def c1_avail : ProviderName → Bool := fun p => p == "deepseek"

/-- Behaviour for the C1 counterexample: the provider returns a dict with
an empty title, which fails schema validation (a per-provider failure of
the schema-invalid kind). -/
def c1_behavior : ProviderName → ProviderOutcome :=
  fun _ => ProviderOutcome.returns ⟨some "", some "body text", some "Спорт", none⟩

/-- C1 counterexample: with DeepSeek as the only available provider and a
schema-invalid result, the provider is attempted, the call fails, and yet
no `log_ai_processing` entry is recorded for the failed attempt — the
claim says every per-provider failure (including a schema-invalid result)
records an EnrichmentAttemptLog entry. -/
theorem c1_counterexample :
    (process_news_with_ai true (mkAIManager c1_avail) 1 c1_behavior).attempted = ["deepseek"] ∧
    (process_news_with_ai true (mkAIManager c1_avail) 1 c1_behavior).success = false ∧
    (process_news_with_ai true (mkAIManager c1_avail) 1 c1_behavior).logs = [] := by
  refine ⟨?_, ?_, ?_⟩ <;> rfl

/-- C1 (amended): providers are attempted in the fixed priority order
[deepseek, claude, gigachat, openai] restricted to the availability
snapshot; the first provider whose result passes schema validation yields
`(True, validated result, provider id)` and no later provider is
attempted; a provider that raises gets a failure log entry and iteration
continues; a provider whose returned result is schema-invalid is skipped
with NO log entry; the succeeding provider gets a success log entry; no
provider is attempted twice within one call. -/
theorem c1_fallback_chain (avail : ProviderName → Bool) (news_id : Nat)
    (behavior : ProviderName → ProviderOutcome)
    (av : List ProviderName) (hav : av = (mkAIManager avail).available_providers)
    (o : AIOutcome) (ho : o = process_news_with_ai true (mkAIManager avail) news_id behavior) :
    av = priority_order.filter avail ∧
    (∃ rest, av = o.attempted ++ rest) ∧
    o.attempted.Nodup ∧
    o.success = av.any (attempt_succeeds behavior) ∧
    o.attempted = av.takeWhile (fun p => !attempt_succeeds behavior p) ++
      (if o.success then [o.provider] else []) ∧
    av.find? (fun p => attempt_succeeds behavior p) =
      (if o.success then some o.provider else none) ∧
    (o.success = true → ∃ r, behavior o.provider = ProviderOutcome.returns r ∧
      validate_ai_result r = o.result) ∧
    o.logs = o.attempted.filterMap (log_of behavior news_id) := by
  have hpl : process_news_with_ai true (mkAIManager avail) news_id behavior =
      process_loop news_id behavior (mkAIManager avail).available_providers := rfl
  subst hav
  subst ho
  rw [hpl]
  have hnd : ((mkAIManager avail).available_providers).Nodup := by
    rw [mkAIManager_available]
    exact List.Nodup.filter _ (by decide)
  obtain ⟨rest, hrest⟩ :=
    process_loop_attempted_prefix news_id behavior (mkAIManager avail).available_providers
  refine ⟨mkAIManager_available avail, ⟨rest, hrest⟩, ?_, ?_, ?_, ?_, ?_, ?_⟩
  · have h1 : List.Sublist
        (process_loop news_id behavior
          (mkAIManager avail).available_providers).attempted
        ((process_loop news_id behavior
          (mkAIManager avail).available_providers).attempted ++ rest) :=
      List.sublist_append_left _ _
    rw [← hrest] at h1
    exact hnd.sublist h1
  · exact process_loop_success news_id behavior _
  · exact process_loop_attempted_eq news_id behavior _
  · exact process_loop_find news_id behavior _
  · exact process_loop_result_of_success news_id behavior _
  · exact process_loop_logs news_id behavior _

/-- Availability oracle for the C1 witness: every provider configured. -/
def c1w_avail : ProviderName → Bool := fun _ => true

/-- Behaviour for the C1 witness: DeepSeek raises, Claude returns a
schema-valid result. -/
def c1w_behavior : ProviderName → ProviderOutcome := fun p =>
  if p == "deepseek" then ProviderOutcome.raises "timeout"
  else ProviderOutcome.returns
    ⟨some "Заголовок новости", some "Текст новости", some "Спорт", some "S"⟩

/-- Witness for C1: at a concrete input where DeepSeek raises and Claude
succeeds, the success hypothesis of the amended theorem is discharged and
the winning provider indeed returned a schema-valid result. -/
theorem c1_fallback_chain_witness :
    ∃ r, c1w_behavior (process_news_with_ai true (mkAIManager c1w_avail) 2 c1w_behavior).provider =
        ProviderOutcome.returns r ∧
      validate_ai_result r =
        (process_news_with_ai true (mkAIManager c1w_avail) 2 c1w_behavior).result := by
  have h := c1_fallback_chain c1w_avail 2 c1w_behavior _ rfl _ rfl
  exact h.2.2.2.2.2.2.1 (by decide)

/-! ### Claim C10: availability snapshot taken once at construction -/

/-- Availability oracle for the C10 witness. -/
def c10w_avail : ProviderName → Bool := fun _ => true

/-- Behaviour for the C10 witness: every provider raises. -/
def c10w_behavior : ProviderName → ProviderOutcome := fun _ =>
  ProviderOutcome.raises "connection refused"

/-- C10: the provider set and order the fallback iterates over is fixed
at construction: `is_available` is queried exactly once per provider of
the priority order while the manager is built (the query trace equals the
priority order, which has no duplicates), the snapshot equals the
availability-filtered priority order, every fallback call attempts a
prefix of exactly that snapshot, and when every snapshot provider fails
the whole snapshot is attempted — availability is never re-queried by the
fallback call, whose only provider input is the snapshot. -/
theorem c10_availability_snapshot (avail : ProviderName → Bool) (news_id : Nat)
    (behavior : ProviderName → ProviderOutcome) :
    (init_scan avail priority_order).snd = priority_order ∧
    priority_order.Nodup ∧
    (mkAIManager avail).available_providers = priority_order.filter avail ∧
    (∃ rest, (mkAIManager avail).available_providers =
      (process_news_with_ai true (mkAIManager avail) news_id behavior).attempted ++ rest) ∧
    (((mkAIManager avail).available_providers).all
        (fun p => !attempt_succeeds behavior p) = true →
      (process_news_with_ai true (mkAIManager avail) news_id behavior).attempted =
        (mkAIManager avail).available_providers) := by
  have hpl : process_news_with_ai true (mkAIManager avail) news_id behavior =
      process_loop news_id behavior (mkAIManager avail).available_providers := rfl
  refine ⟨init_scan_snd avail priority_order, by decide, mkAIManager_available avail, ?_, ?_⟩
  · rw [hpl]
    exact process_loop_attempted_prefix news_id behavior _
  · intro hall
    rw [hpl]
    have he := process_loop_attempted_eq news_id behavior (mkAIManager avail).available_providers
    have hs := process_loop_success news_id behavior (mkAIManager avail).available_providers
    have hany : ((mkAIManager avail).available_providers).any (attempt_succeeds behavior) = false := by
      rw [List.all_eq_true] at hall
      rw [List.any_eq_false]
      intro p hp
      have := hall p hp
      simpa using this
    rw [hany] at hs
    rw [he, hs]
    simp [takeWhile_of_all _ _ hall]

/-- Witness for C10: with every provider configured and every provider
raising, a fallback call attempts exactly the construction-time snapshot. -/
theorem c10_availability_snapshot_witness :
    (process_news_with_ai true (mkAIManager c10w_avail) 3 c10w_behavior).attempted =
      (mkAIManager c10w_avail).available_providers := by
  have h := c10_availability_snapshot c10w_avail 3 c10w_behavior
  exact h.2.2.2.2 (by decide)

/-! ### Persisted records (src/database/models.py) -/

/-- A row of the `news` table, with the fields the ingestion core reads
or writes. -/
structure News where
  id : Nat
  title : String
  content : String
  url : Option String
  category : Option String
  status : String
  ai_processing_attempts : Nat
  ai_processing_error : Option String
  processed_title : Option String
  processed_content : Option String
  emoji : Option String
  published_at : Option Int
  created_at : Int
  deriving DecidableEq, Repr

/-- A row of the `parsed_urls` table (seen-URL store). -/
structure ParsedURL where
  url : String
  url_hash : String
  news_id : Nat
  created_at : Int
  deriving DecidableEq, Repr

/-- `get_url_hash` in `database/database.py` is sha256 of the URL; only
digest equality is ever observed, so the digest is modelled by the
injective identity encoding. -/
def get_url_hash (u : String) : String := u

/-! ### Enrichment of one persisted record
(`NewsProcessor._process_with_ai` in src/parsers/parser_manager.py) -/

/-- `NewsProcessor._process_with_ai`: run the fallback chain on one
persisted record.  On success the processed fields are filled and the
status becomes processed (or published under auto-publish); on failure
the attempt counter is incremented and the last-error text set.  The
second component is the trace of `log_ai_processing` events. -/
def process_record_with_ai (st : AIManagerState) (use_ai auto_publish : Bool)
    (behavior : ProviderName → ProviderOutcome) (now : Int) (news : News) :
    News × List AttemptLog :=
  let o := process_news_with_ai use_ai st news.id behavior
  if o.success then
    let r := o.result.getD ⟨none, none, none, none⟩
    ({ news with
        processed_title := some (r.title.getD news.title),
        processed_content := some (r.content.getD news.content),
        category := match r.category with
          | some c => some c
          | none => news.category,
        emoji := some (r.emoji.getD ""),
        status := if auto_publish then "published" else "processed",
        published_at := if auto_publish then some now else news.published_at }, o.logs)
  else
    ({ news with
        ai_processing_attempts := news.ai_processing_attempts + 1,
        ai_processing_error := some "Ошибка обработки ИИ" }, o.logs)

/-! ### Claim C3: record state after all providers fail -/

/-- Availability oracle for the C3 counterexample: only Claude
configured. -/
def c3_avail : ProviderName → Bool := fun p => p == "claude"

/-- Behaviour for the C3 counterexample: Claude returns a dict with an
empty content field — a schema-invalid result, so every provider fails. -/
def c3_behavior : ProviderName → ProviderOutcome :=
  fun _ => ProviderOutcome.returns ⟨some "Заголовок", some "", some "Спорт", none⟩

/-- A pending record for the C3 counterexample. -/
def c3_news : News :=
  ⟨5, "Некоторый заголовок новости", "Некоторое содержание новости", none, none,
   "pending", 0, none, none, none, none, none, 0⟩

/-- C3 counterexample: every provider fails (Claude, the only one, is
tried and returns a schema-invalid result); the record stays pending and
the counter increments, but NO failure is logged for the tried provider —
the claim says a failure is logged for each provider that was tried. -/
theorem c3_counterexample :
    (process_news_with_ai true (mkAIManager c3_avail) c3_news.id c3_behavior).attempted
        = ["claude"] ∧
    (process_news_with_ai true (mkAIManager c3_avail) c3_news.id c3_behavior).success
        = false ∧
    (process_record_with_ai (mkAIManager c3_avail) true false c3_behavior 0 c3_news).fst.status
        = "pending" ∧
    (process_record_with_ai (mkAIManager c3_avail) true false c3_behavior 0 c3_news).fst.ai_processing_attempts
        = 1 ∧
    (process_record_with_ai (mkAIManager c3_avail) true false c3_behavior 0 c3_news).snd
        = [] := by
  refine ⟨?_, ?_, ?_, ?_, ?_⟩ <;> rfl

/-- C3 (amended): for every persisted record on which every enrichment
provider fails, the status is left unchanged (a pending record stays
pending), the attempt counter is exactly one greater, the last-error text
is set, every other field is untouched, and a failure log entry exists
exactly for each tried provider that raised a transport error — a
schema-invalid result leaves no log entry. -/
theorem c3_enrichment_exhausted (st : AIManagerState) (use_ai auto_publish : Bool)
    (behavior : ProviderName → ProviderOutcome) (now : Int) (news : News)
    (o : AIOutcome) (ho : o = process_news_with_ai use_ai st news.id behavior)
    (hfail : o.success = false) :
    (process_record_with_ai st use_ai auto_publish behavior now news).fst =
      { news with
        ai_processing_attempts := news.ai_processing_attempts + 1,
        ai_processing_error := some "Ошибка обработки ИИ" } ∧
    (process_record_with_ai st use_ai auto_publish behavior now news).fst.status = news.status ∧
    (news.status = "pending" →
      (process_record_with_ai st use_ai auto_publish behavior now news).fst.status = "pending") ∧
    (process_record_with_ai st use_ai auto_publish behavior now news).snd =
      o.attempted.filterMap (log_of behavior news.id) := by
  subst ho
  have hb : process_record_with_ai st use_ai auto_publish behavior now news =
      ({ news with
          ai_processing_attempts := news.ai_processing_attempts + 1,
          ai_processing_error := some "Ошибка обработки ИИ" },
        (process_news_with_ai use_ai st news.id behavior).logs) := by
    simp only [process_record_with_ai]
    rw [hfail]
    simp
  refine ⟨by rw [hb], by rw [hb], fun h => by rw [hb]; exact h, ?_⟩
  rw [hb]
  cases use_ai with
  | false => rfl
  | true => exact process_loop_logs news.id behavior _

/-- Behaviour for the C3 witness: every provider raises. -/
def c3w_behavior : ProviderName → ProviderOutcome := fun _ =>
  ProviderOutcome.raises "HTTP 500"

/-- Witness for C3: with all four providers available and all raising,
the failure hypothesis is discharged at a concrete record and the
record comes back pending with the counter at one. -/
theorem c3_enrichment_exhausted_witness :
    (process_record_with_ai (mkAIManager c1w_avail) true false c3w_behavior 0 c3_news).fst =
      { c3_news with
        ai_processing_attempts := 1,
        ai_processing_error := some "Ошибка обработки ИИ" } ∧
    (process_record_with_ai (mkAIManager c1w_avail) true false c3w_behavior 0 c3_news).fst.status
      = "pending" := by
  have h := c3_enrichment_exhausted (mkAIManager c1w_avail) true false c3w_behavior 0 c3_news
    _ rfl (by decide)
  exact ⟨h.1, h.2.2.1 rfl⟩

/-! ### Parse manager re-entrancy
(`ParserManager.parse_all_sources` in src/parsers/parser_manager.py) -/

/-- Per-source outcome dictionary built by `parse_single_source`. -/
structure SourceMetrics where
  success : Bool
  news_found : Nat
  news_created : Nat
  duplicates : Nat
  errors : Nat
  deriving DecidableEq, Repr

/-- The `parsing_stats` dictionary of `ParserManager`. -/
structure ParsingStats where
  total_runs : Nat
  successful_runs : Nat
  total_news_found : Nat
  total_news_created : Nat
  total_duplicates : Nat
  total_errors : Nat
  deriving DecidableEq, Repr

/-- The manager state `parse_all_sources` reads and writes. -/
structure ManagerState where
  is_parsing : Bool
  last_parsing_time : Option Int
  parsing_stats : ParsingStats
  deriving DecidableEq, Repr

/-- `ParserManager._update_parsing_stats`. -/
def update_parsing_stats (s : ParsingStats) (ms : List SourceMetrics) : ParsingStats :=
  ⟨s.total_runs + 1,
   s.successful_runs + (if 0 < ms.countP (fun m => m.success) then 1 else 0),
   s.total_news_found + (ms.map (fun m => m.news_found)).sum,
   s.total_news_created + (ms.map (fun m => m.news_created)).sum,
   s.total_duplicates + (ms.map (fun m => m.duplicates)).sum,
   s.total_errors + ms.countP (fun m => !m.success)⟩

/-- `ParserManager.parse_all_sources`.  The per-source work of the worker
pool is abstracted as the gathered outcome list `outcomes` (its
collection order is unconstrained and irrelevant here).  The guard
returns immediately when a run is in flight; otherwise the flag is set,
the body runs, and the `finally` clause clears the flag, so the returned
state has the flag cleared again. -/
def parse_all_sources (st : ManagerState) (outcomes : List SourceMetrics) (now : Int) :
    List SourceMetrics × ManagerState :=
  if st.is_parsing then ([], st)
  else if outcomes.isEmpty then ([], st)
  else
    (outcomes,
      { is_parsing := false,
        last_parsing_time := some now,
        parsing_stats := update_parsing_stats st.parsing_stats outcomes })

/-- Begin/end view of full-catalog runs: `tryBegin` is the guard of
`parse_all_sources` (atomic test-and-set of `is_parsing`), `endRun` the
`finally` clause.  `active` counts runs currently inside the body. -/
structure RunCounter where
  is_parsing : Bool
  active : Nat
  deriving DecidableEq, Repr

/-- Events of the run interleaving model. -/
inductive RunEvent where
  | tryBegin
  | endRun
  deriving DecidableEq, Repr

/-- One transition: a begin attempt is rejected while the flag is set;
an end clears the flag and retires the run. -/
def runStep : RunCounter → RunEvent → RunCounter
  | s, RunEvent.tryBegin => if s.is_parsing then s else ⟨true, s.active + 1⟩
  | s, RunEvent.endRun => if s.active = 0 then s else ⟨false, s.active - 1⟩

/-- State reached from the initial manager state (flag clear, no run)
after a sequence of begin/end events. -/
def runTrace (evs : List RunEvent) : RunCounter :=
  evs.foldl runStep ⟨false, 0⟩

/-- The inductive invariant of the run counter. -/
def RunInv (s : RunCounter) : Prop :=
  s.active ≤ 1 ∧ (s.is_parsing = false → s.active = 0)

/-- Each event preserves the invariant. -/
theorem runStep_preserves (s : RunCounter) (e : RunEvent) (h : RunInv s) :
    RunInv (runStep s e) := by
  obtain ⟨h1, h2⟩ := h
  cases e with
  | tryBegin =>
    cases hp : s.is_parsing with
    | true => simpa [runStep, hp] using ⟨h1, h2⟩
    | false =>
      have h0 := h2 hp
      simp only [runStep, hp]
      exact ⟨by simp [h0], by simp⟩
  | endRun =>
    cases ha : s.active with
    | zero =>
      simp only [runStep, ha]
      exact ⟨h1, h2⟩
    | succ n =>
      simp only [runStep, ha]
      have hn : n = 0 := by
        rw [ha] at h1
        omega
      exact ⟨by simp [hn], by simp [hn]⟩

/-- Every reachable run-counter state satisfies the invariant. -/
theorem runTrace_inv (evs : List RunEvent) : RunInv (runTrace evs) := by
  have key : ∀ s, RunInv s → RunInv (evs.foldl runStep s) := by
    induction evs with
    | nil => intro s h; exact h
    | cons e rest ih => intro s h; exact ih _ (runStep_preserves s e h)
  exact key _ ⟨by simp, fun _ => rfl⟩

/-! ### Claim C2: re-entrancy guard -/

/-- C2: a `parse_all_sources` invocation while the `is_parsing` flag is
set returns the empty list immediately and leaves the whole manager state
(statistics, last-parsing time) unchanged, for every environment; and in
the begin/end interleaving model started from the initial state, at no
reachable point is more than one full-catalog run active. -/
theorem c2_reentrancy_guard :
    (∀ (st : ManagerState) (outcomes : List SourceMetrics) (now : Int),
      st.is_parsing = true → parse_all_sources st outcomes now = ([], st)) ∧
    (∀ evs : List RunEvent, (runTrace evs).active ≤ 1) := by
  constructor
  · intro st outcomes now h
    simp [parse_all_sources, h]
  · intro evs
    exact (runTrace_inv evs).1

/-- A manager state that is mid-run, for the C2 witness. -/
def c2w_state : ManagerState := ⟨true, none, ⟨0, 0, 0, 0, 0, 0⟩⟩

/-- Witness for C2: a concrete second invocation during a run returns the
empty list with the state untouched, and a concrete event trace with an
overlapping begin attempt keeps at most one active run. -/
theorem c2_reentrancy_guard_witness :
    parse_all_sources c2w_state [⟨true, 3, 2, 1, 0⟩] 100 = ([], c2w_state) ∧
    (runTrace [RunEvent.tryBegin, RunEvent.tryBegin, RunEvent.endRun]).active ≤ 1 := by
  have h := c2_reentrancy_guard
  exact ⟨h.1 c2w_state [⟨true, 3, 2, 1, 0⟩] 100 rfl, h.2 _⟩

/-! ### Candidate records (`NewsItem` in src/parsers/base_parser.py) -/

/-- A candidate record as built by `NewsItem.__init__`: title and content
already stripped, identity hash already computed. -/
structure NewsItem where
  title : String
  content : String
  url : Option String
  author : Option String
  image_url : Option String
  category : Option String
  hash : String
  deriving DecidableEq, Repr

/-- `NewsItem._create_hash` computes md5 of the title concatenated with
the first 100 characters of the content; only digest equality is ever
observed, so the digest is modelled by the injective pre-image string. -/
def create_hash (title content : String) : String := title ++ content.take 100

/-- Python `str.strip()`: drop leading and trailing whitespace
characters. -/
def pyStrip (s : String) : String :=
  String.mk (((s.data.dropWhile Char.isWhitespace).reverse.dropWhile
    Char.isWhitespace).reverse)

/-- The `NewsItem` constructor: strip title and content, compute the
identity hash from the stripped fields. -/
def mkNewsItem (title content : String)
    (url author image_url category : Option String) : NewsItem :=
  ⟨pyStrip title, pyStrip content, url, author, image_url, category,
   create_hash (pyStrip title) (pyStrip content)⟩

/-- `NewsItem.is_valid`: non-empty title and content, title longer than
10 characters, content longer than 50. -/
def NewsItem.is_valid (i : NewsItem) : Bool :=
  !i.title.isEmpty && !i.content.isEmpty &&
    decide (10 < i.title.length) && decide (50 < i.content.length)

/-- `BaseParser._validate_news_item`: basic validity, then rejection (not
truncation) of titles over 500 and contents over 10000 characters. -/
def validate_news_item (i : NewsItem) : Bool :=
  i.is_valid && decide (i.title.length ≤ 500) && decide (i.content.length ≤ 10000)

/-- The filtering step of `BaseParser.parse_with_metrics`: only items
passing `_validate_news_item` are returned to the caller (and hence can
reach persistence). -/
def filter_valid (items : List NewsItem) : List NewsItem :=
  items.filter validate_news_item

/-! ### Claim C9: parser-side length caps reject, not truncate -/

/-- C9: a candidate whose title exceeds 500 characters or whose body
exceeds 10000 characters is rejected by `_validate_news_item`; a record
at or below both caps is not rejected on length grounds (the check then
agrees with basic validity); and the filter drops items without modifying
the survivors, which are items of the input unchanged. -/
theorem c9_length_caps (i : NewsItem) :
    ((500 < i.title.length ∨ 10000 < i.content.length) → validate_news_item i = false) ∧
    (i.title.length ≤ 500 → i.content.length ≤ 10000 →
      validate_news_item i = i.is_valid) ∧
    (∀ items : List NewsItem, ∀ j ∈ filter_valid items, j ∈ items) := by
  refine ⟨?_, ?_, ?_⟩
  · rintro (h | h)
    · have hd : decide (i.title.length ≤ 500) = false := by
        simp only [decide_eq_false_iff_not]
        omega
      simp [validate_news_item, hd]
    · have hd : decide (i.content.length ≤ 10000) = false := by
        simp only [decide_eq_false_iff_not]
        omega
      simp [validate_news_item, hd]
  · intro h1 h2
    simp [validate_news_item, decide_eq_true h1, decide_eq_true h2]
  · intro items j hj
    exact (List.mem_filter.mp hj).1

/-- An over-long candidate (title of 501 characters) for the C9 witness. -/
def c9w_long : NewsItem :=
  ⟨String.mk (List.replicate 501 'a'), "x", none, none, none, none, "h"⟩

/-- A short candidate for the C9 witness. -/
def c9w_ok : NewsItem :=
  ⟨"Заголовок приемлемой длины",
   "Содержание новости, длина которого превышает пятьдесят символов.",
   none, none, none, none, "h2"⟩

/-- Witness for C9: the over-cap hypothesis and the under-cap hypotheses
are discharged at concrete candidates. -/
theorem c9_length_caps_witness :
    validate_news_item c9w_long = false ∧
    validate_news_item c9w_ok = c9w_ok.is_valid := by
  constructor
  · exact (c9_length_caps c9w_long).1 (Or.inl (by decide))
  · exact (c9_length_caps c9w_ok).2.1 (by decide) (by decide)

/-! ### Duplicate checker (`DuplicateChecker` in src/parsers/parser_manager.py) -/

/-- The checker state: in-process hash set and time of the last rolling
cleanup. -/
structure DupState where
  recent_hashes : List String
  last_cleanup : Int
  deriving DecidableEq, Repr

/-- The durable store the checker queries. -/
structure DB where
  news : List News
  parsed_urls : List ParsedURL
  deriving DecidableEq, Repr

/-- Which branch of `is_duplicate` decided (instrumentation of the
return value: every constructor except `notDup` means `True`). -/
inductive DupDecision where
  | cacheHit
  | urlHit
  | titleHit
  | notDup
  deriving DecidableEq, Repr

/-- Boolean value `is_duplicate` returns for each decision. -/
def DupDecision.isDup : DupDecision → Bool
  | DupDecision.notDup => false
  | _ => true

/-- The seen-URL lookup: the candidate has a URL whose hash is in the
`parsed_urls` store. -/
def url_seen (db : DB) : Option String → Bool
  | none => false
  | some u => (db.parsed_urls.find? (fun r => r.url_hash == get_url_hash u)).isSome

/-- The title check of `is_duplicate`: the store is queried for the FIRST
record with the same title (`.first()` on an unordered query, modelled as
insertion order) and only that record's 100-character snippet is
compared. -/
def title_snippet_dup (db : DB) (item : NewsItem) : Bool :=
  match db.news.find? (fun n => n.title == item.title) with
  | some n => item.content.take 100 == n.content.take 100
  | none => false

/-- `DuplicateChecker.is_duplicate`, with the state threaded explicitly
and `datetime.utcnow()` passed as `now` (seconds).  On the not-duplicate
path the hash is added to the in-process set; then, when more than an
hour has passed since the last cleanup, the whole set — including the
hash just added — is cleared and the cleanup time reset. -/
def is_duplicate (st : DupState) (db : DB) (now : Int) (item : NewsItem) :
    DupDecision × DupState :=
  if st.recent_hashes.contains item.hash then (DupDecision.cacheHit, st)
  else if url_seen db item.url then (DupDecision.urlHit, st)
  else if title_snippet_dup db item then (DupDecision.titleHit, st)
  else
    (DupDecision.notDup,
      if 3600 < now - st.last_cleanup then ⟨[], now⟩
      else ⟨item.hash :: st.recent_hashes, st.last_cleanup⟩)

/-! ### Claim C4: duplicate decision order -/

/-- Store with two records sharing a title for the C4 counterexample. -/
def c4_db : DB :=
  ⟨[⟨0, "Повторяющийся заголовок", "Первый вариант текста", none, none,
     "pending", 0, none, none, none, none, none, 0⟩,
    ⟨1, "Повторяющийся заголовок", "Второй вариант текста", none, none,
     "pending", 0, none, none, none, none, none, 0⟩], []⟩

/-- Candidate matching the SECOND stored record exactly, for the C4
counterexample. -/
def c4_item : NewsItem :=
  mkNewsItem "Повторяющийся заголовок" "Второй вариант текста" none none none none

/-- C4 counterexample.  First part: a persisted record with exactly the
candidate's title and first-100-character snippet exists (the second
one), yet `is_duplicate` answers not-a-duplicate, because only the first
title match is snippet-compared.  Second part: on the not-duplicate path
with a stale cleanup timestamp the identity hash is NOT in the in-process
set afterwards — the hourly cleanup clears it in the same call. -/
theorem c4_counterexample :
    (is_duplicate ⟨[], 0⟩ c4_db 0 c4_item).fst = DupDecision.notDup ∧
    c4_db.news.any (fun n => n.title == c4_item.title &&
      n.content.take 100 == c4_item.content.take 100) = true ∧
    (is_duplicate ⟨[], 0⟩ ⟨[], []⟩ 7200 c4_item).fst = DupDecision.notDup ∧
    (is_duplicate ⟨[], 0⟩ ⟨[], []⟩ 7200 c4_item).snd.recent_hashes.contains c4_item.hash
      = false := by
  refine ⟨rfl, by decide, rfl, by decide⟩

/-- C4 (amended): `is_duplicate` decides in exactly this order: (1) hash
in the in-process set → duplicate; (2) else origin URL hashed and found
in the seen-URL store → duplicate; (3) else the FIRST persisted record
with the same title exists and its first-100-character snippet matches →
duplicate (records with the same title beyond the first are not
consulted); (4) otherwise not a duplicate, and the identity hash is added
to the in-process set unless the hourly rolling cleanup triggers in the
same call, in which case the set — including the just-added hash — is
cleared.  A record is a non-duplicate exactly when all three checks miss. -/
theorem c4_duplicate_decision (st : DupState) (db : DB) (now : Int) (item : NewsItem) :
    (st.recent_hashes.contains item.hash = true →
      is_duplicate st db now item = (DupDecision.cacheHit, st)) ∧
    (st.recent_hashes.contains item.hash = false → url_seen db item.url = true →
      is_duplicate st db now item = (DupDecision.urlHit, st)) ∧
    (st.recent_hashes.contains item.hash = false → url_seen db item.url = false →
      title_snippet_dup db item = true →
      is_duplicate st db now item = (DupDecision.titleHit, st)) ∧
    (st.recent_hashes.contains item.hash = false → url_seen db item.url = false →
      title_snippet_dup db item = false →
      is_duplicate st db now item =
        (DupDecision.notDup,
          if 3600 < now - st.last_cleanup then ⟨[], now⟩
          else ⟨item.hash :: st.recent_hashes, st.last_cleanup⟩)) ∧
    ((is_duplicate st db now item).fst.isDup = false ↔
      st.recent_hashes.contains item.hash = false ∧ url_seen db item.url = false ∧
        title_snippet_dup db item = false) := by
  refine ⟨?_, ?_, ?_, ?_, ?_⟩
  · intro h1
    simp at h1
    simp [is_duplicate, h1]
  · intro h1 h2
    simp at h1
    simp [is_duplicate, h1, h2]
  · intro h1 h2 h3
    simp at h1
    simp [is_duplicate, h1, h2, h3]
  · intro h1 h2 h3
    simp at h1
    simp [is_duplicate, h1, h2, h3]
  · constructor
    · intro h
      by_cases h1 : item.hash ∈ st.recent_hashes
      · have heq : is_duplicate st db now item = (DupDecision.cacheHit, st) := by
          simp [is_duplicate, h1]
        rw [heq] at h
        simp [DupDecision.isDup] at h
      · by_cases h2 : url_seen db item.url = true
        · have heq : is_duplicate st db now item = (DupDecision.urlHit, st) := by
            simp [is_duplicate, h1, h2]
          rw [heq] at h
          simp [DupDecision.isDup] at h
        · rw [Bool.not_eq_true] at h2
          by_cases h3 : title_snippet_dup db item = true
          · have heq : is_duplicate st db now item = (DupDecision.titleHit, st) := by
              simp [is_duplicate, h1, h2, h3]
            rw [heq] at h
            simp [DupDecision.isDup] at h
          · rw [Bool.not_eq_true] at h3
            exact ⟨by simpa using h1, h2, h3⟩
    · rintro ⟨h1, h2, h3⟩
      have h1m : item.hash ∉ st.recent_hashes := by simpa using h1
      have heq : (is_duplicate st db now item).fst = DupDecision.notDup := by
        simp [is_duplicate, h1m, h2, h3]
      rw [heq]
      rfl

/-- An unseen candidate for the C4 witness. -/
def c4w_item : NewsItem :=
  mkNewsItem "Свежий заголовок дня" "Какое-то совершенно новое содержание." none none none none

/-- Witness for C4: the cache-hit hypothesis and the fresh-record
hypotheses of the amended decision theorem discharged at concrete
inputs. -/
theorem c4_duplicate_decision_witness :
    is_duplicate ⟨[c4w_item.hash], 0⟩ ⟨[], []⟩ 0 c4w_item =
      (DupDecision.cacheHit, ⟨[c4w_item.hash], 0⟩) ∧
    is_duplicate ⟨[], 0⟩ ⟨[], []⟩ 10 c4w_item =
      (DupDecision.notDup, ⟨[c4w_item.hash], 0⟩) := by
  constructor
  · exact (c4_duplicate_decision ⟨[c4w_item.hash], 0⟩ ⟨[], []⟩ 0 c4w_item).1 (by decide)
  · have h := (c4_duplicate_decision ⟨[], 0⟩ ⟨[], []⟩ 10 c4w_item).2.2.2.1
      (by decide) (by decide) (by decide)
    simpa using h

/-! ### Batch persistence
(`NewsProcessor.process_news_items` in src/parsers/parser_manager.py) -/

/-- The configuration and oracles a batch run reads: settings flags, the
manager snapshot, the per-record provider behaviour, and the wall-clock
time of the run. -/
structure PipelineEnv where
  use_ai : Bool
  auto_publish : Bool
  manager : AIManagerState
  behavior : Nat → ProviderName → ProviderOutcome
  now : Int

/-- Mutable state of a batch run: the duplicate-checker state and the
durable store. -/
structure PipelineState where
  dup : DupState
  db : DB
  deriving DecidableEq, Repr

/-- The loop body of `process_news_items` for one candidate: duplicate
check; when not a duplicate, create a pending `News` row (its id modelled
as the next row index), record the seen URL when present, and optionally
run the enrichment chain on the new row before storing it.  Returns the
duplicate decision, the emitted log events, and the new state. -/
def process_one (env : PipelineEnv) (s : PipelineState) (item : NewsItem) :
    DupDecision × List AttemptLog × PipelineState :=
  match is_duplicate s.dup s.db env.now item with
  | (DupDecision.notDup, dup2) =>
    let news_id := s.db.news.length
    let created : News :=
      ⟨news_id, item.title, item.content, item.url, item.category,
       "pending", 0, none, none, none, none, none, env.now⟩
    let enriched :=
      if env.use_ai then
        process_record_with_ai env.manager env.use_ai env.auto_publish
          (env.behavior news_id) env.now created
      else (created, [])
    let urls2 := match item.url with
      | some u => s.db.parsed_urls ++ [⟨u, get_url_hash u, news_id, env.now⟩]
      | none => s.db.parsed_urls
    (DupDecision.notDup, enriched.snd, ⟨dup2, ⟨s.db.news ++ [enriched.fst], urls2⟩⟩)
  | (d, dup2) => (d, [], ⟨dup2, s.db⟩)

/-- `NewsProcessor.process_news_items`: fold the loop body over the
batch, collecting per-item decisions and log events. -/
def process_news_items (env : PipelineEnv) (s : PipelineState) :
    List NewsItem → List DupDecision × List AttemptLog × PipelineState
  | [] => ([], [], s)
  | item :: rest =>
    let r1 := process_one env s item
    let r2 := process_news_items env r1.snd.snd rest
    (r1.fst :: r2.fst, r1.snd.fst ++ r2.snd.fst, r2.snd.snd)

/-- The `created` counter of a batch: items decided not-a-duplicate. -/
def created_count (ds : List DupDecision) : Nat := ds.count DupDecision.notDup

/-- Enrichment never rewrites the identity fields of a row: the `title`
and `content` columns survive `_process_with_ai` unchanged (only the
`processed_*` columns are written). -/
theorem process_record_title_content (st : AIManagerState) (use_ai auto_publish : Bool)
    (behavior : ProviderName → ProviderOutcome) (now : Int) (news : News) :
    (process_record_with_ai st use_ai auto_publish behavior now news).fst.title = news.title ∧
    (process_record_with_ai st use_ai auto_publish behavior now news).fst.content = news.content := by
  simp only [process_record_with_ai]
  split <;> simp

/-- Case analysis of the loop body: the decision is the duplicate
decision, the checker state advances accordingly, a duplicate leaves the
store untouched, and a non-duplicate appends exactly one row carrying the
candidate title and content. -/
theorem process_one_cases (env : PipelineEnv) (s : PipelineState) (item : NewsItem) :
    (process_one env s item).fst = (is_duplicate s.dup s.db env.now item).fst ∧
    (process_one env s item).snd.snd.dup = (is_duplicate s.dup s.db env.now item).snd ∧
    ((process_one env s item).fst ≠ DupDecision.notDup →
      (process_one env s item).snd.snd.db = s.db) ∧
    ((process_one env s item).fst = DupDecision.notDup →
      ∃ row, (process_one env s item).snd.snd.db.news = s.db.news ++ [row] ∧
        row.title = item.title ∧ row.content = item.content) := by
  rcases hd : is_duplicate s.dup s.db env.now item with ⟨d, dup2⟩
  cases d with
  | notDup =>
    refine ⟨by simp [process_one, hd], by simp [process_one, hd], ?_, ?_⟩
    · intro hne
      exact absurd (by simp [process_one, hd]) hne
    · intro _
      by_cases hai : env.use_ai = true
      · refine ⟨(process_record_with_ai env.manager env.use_ai env.auto_publish
          (env.behavior s.db.news.length) env.now
          ⟨s.db.news.length, item.title, item.content, item.url, item.category,
           "pending", 0, none, none, none, none, none, env.now⟩).fst,
          by simp [process_one, hd, hai], ?_, ?_⟩
        · exact (process_record_title_content _ _ _ _ _ _).1
        · exact (process_record_title_content _ _ _ _ _ _).2
      · rw [Bool.not_eq_true] at hai
        exact ⟨⟨s.db.news.length, item.title, item.content, item.url, item.category,
          "pending", 0, none, none, none, none, none, env.now⟩,
          by simp [process_one, hd, hai], rfl, rfl⟩
  | cacheHit =>
    refine ⟨by simp [process_one, hd], by simp [process_one, hd],
      fun _ => by simp [process_one, hd], fun h => ?_⟩
    rw [show (process_one env s item).fst = DupDecision.cacheHit by
      simp [process_one, hd]] at h
    exact absurd h (by decide)
  | urlHit =>
    refine ⟨by simp [process_one, hd], by simp [process_one, hd],
      fun _ => by simp [process_one, hd], fun h => ?_⟩
    rw [show (process_one env s item).fst = DupDecision.urlHit by
      simp [process_one, hd]] at h
    exact absurd h (by decide)
  | titleHit =>
    refine ⟨by simp [process_one, hd], by simp [process_one, hd],
      fun _ => by simp [process_one, hd], fun h => ?_⟩
    rw [show (process_one env s item).fst = DupDecision.titleHit by
      simp [process_one, hd]] at h
    exact absurd h (by decide)

/-- Every row present after a batch either was already in the store or
carries the title and content of some batch item. -/
theorem process_news_items_rows (env : PipelineEnv) (items : List NewsItem)
    (s : PipelineState) (n : News)
    (hn : n ∈ (process_news_items env s items).snd.snd.db.news) :
    n ∈ s.db.news ∨ ∃ j ∈ items, n.title = j.title ∧ n.content = j.content := by
  induction items generalizing s with
  | nil => exact Or.inl (by simpa [process_news_items] using hn)
  | cons item rest ih =>
    simp only [process_news_items] at hn
    rcases ih _ hn with h1 | ⟨j, hj, hjt⟩
    · by_cases hd : (process_one env s item).fst = DupDecision.notDup
      · obtain ⟨row, hrow, ht, hc⟩ := (process_one_cases env s item).2.2.2 hd
        rw [hrow] at h1
        rcases List.mem_append.mp h1 with h2 | h2
        · exact Or.inl h2
        · have hn2 : n = row := by simpa using h2
          exact Or.inr ⟨item, by simp, by rw [hn2]; exact ⟨ht, hc⟩⟩
      · have hsame := (process_one_cases env s item).2.2.1 hd
        rw [hsame] at h1
        exact Or.inl h1
    · exact Or.inr ⟨j, by simp [hj], hjt⟩

/-! ### Claim C5: validity gate before persistence -/

/-- C5: a candidate whose title has at most 10 characters or whose body
has at most 50 characters fails `is_valid`, fails `_validate_news_item`,
never survives the parser-side filter, and no row a batch run adds to the
store carries its title and content — it never reaches persistence. -/
theorem c5_validity_gate (i : NewsItem)
    (h : i.title.length ≤ 10 ∨ i.content.length ≤ 50) :
    i.is_valid = false ∧
    validate_news_item i = false ∧
    (∀ items : List NewsItem, i ∉ filter_valid items) ∧
    (∀ (env : PipelineEnv) (s : PipelineState) (items : List NewsItem) (n : News),
      n ∈ (process_news_items env s (filter_valid items)).snd.snd.db.news →
      n ∉ s.db.news →
      ¬(n.title = i.title ∧ n.content = i.content)) := by
  have hv : i.is_valid = false := by
    rcases h with h | h
    · have hd : decide (10 < i.title.length) = false := by
        simp only [decide_eq_false_iff_not]
        omega
      simp [NewsItem.is_valid, hd]
    · have hd : decide (50 < i.content.length) = false := by
        simp only [decide_eq_false_iff_not]
        omega
      simp [NewsItem.is_valid, hd]
  have hvn : validate_news_item i = false := by simp [validate_news_item, hv]
  refine ⟨hv, hvn, ?_, ?_⟩
  · intro items hmem
    have hfv := (List.mem_filter.mp hmem).2
    rw [hvn] at hfv
    exact Bool.noConfusion hfv
  · intro env s items n hn hnot hcontra
    rcases process_news_items_rows env (filter_valid items) s n hn with h1 | ⟨j, hj, ht, hc⟩
    · exact hnot h1
    · have hjv : validate_news_item j = true := (List.mem_filter.mp hj).2
      have hval : j.is_valid = true := by
        by_contra hne
        rw [Bool.not_eq_true] at hne
        simp [validate_news_item, hne] at hjv
      simp only [NewsItem.is_valid, Bool.and_eq_true, decide_eq_true_eq] at hval
      have h10 : 10 < j.title.length := by tauto
      have h50 : 50 < j.content.length := by tauto
      rcases hcontra with ⟨hct, hcc⟩
      rw [hct] at ht
      rw [hcc] at hc
      rcases h with h | h
      · rw [← ht] at h10
        omega
      · rw [← hc] at h50
        omega

/-- An invalid candidate (7-character title) for the C5 witness. -/
def c5w_item : NewsItem :=
  ⟨"Коротко", "Содержание для проверки короткого заголовка в этом тесте.",
   none, none, none, none,
   create_hash "Коротко" "Содержание для проверки короткого заголовка в этом тесте."⟩

/-- Witness for C5: the short-title hypothesis is discharged at a
concrete candidate, which fails both validity checks. -/
theorem c5_validity_gate_witness :
    c5w_item.is_valid = false ∧ validate_news_item c5w_item = false := by
  have h := c5_validity_gate c5w_item (Or.inl (by decide))
  exact ⟨h.1, h.2.1⟩

/-! ### Claim C6: intra-run dedup by identity hash -/

/-- When no hourly cleanup triggers, one duplicate check preserves the
cleanup timestamp, keeps every hash already in the in-process set, and on
the not-duplicate path leaves the candidate hash in the set. -/
theorem is_duplicate_no_cleanup (st : DupState) (db : DB) (now : Int) (item : NewsItem)
    (hclean : now - st.last_cleanup ≤ 3600) :
    (is_duplicate st db now item).snd.last_cleanup = st.last_cleanup ∧
    (∀ h, h ∈ st.recent_hashes → h ∈ (is_duplicate st db now item).snd.recent_hashes) ∧
    ((is_duplicate st db now item).fst = DupDecision.notDup →
      item.hash ∈ (is_duplicate st db now item).snd.recent_hashes) := by
  have hno : ¬(3600 < now - st.last_cleanup) := by omega
  by_cases h1 : item.hash ∈ st.recent_hashes
  · refine ⟨by simp [is_duplicate, h1], fun h hh => by simpa [is_duplicate, h1] using hh, ?_⟩
    intro hd
    rw [show (is_duplicate st db now item).fst = DupDecision.cacheHit by
      simp [is_duplicate, h1]] at hd
    exact absurd hd (by decide)
  · by_cases h2 : url_seen db item.url = true
    · refine ⟨by simp [is_duplicate, h1, h2],
        fun h hh => by simpa [is_duplicate, h1, h2] using hh, ?_⟩
      intro hd
      rw [show (is_duplicate st db now item).fst = DupDecision.urlHit by
        simp [is_duplicate, h1, h2]] at hd
      exact absurd hd (by decide)
    · rw [Bool.not_eq_true] at h2
      by_cases h3 : title_snippet_dup db item = true
      · refine ⟨by simp [is_duplicate, h1, h2, h3],
          fun h hh => by simpa [is_duplicate, h1, h2, h3] using hh, ?_⟩
        intro hd
        rw [show (is_duplicate st db now item).fst = DupDecision.titleHit by
          simp [is_duplicate, h1, h2, h3]] at hd
        exact absurd hd (by decide)
      · rw [Bool.not_eq_true] at h3
        refine ⟨by simp [is_duplicate, h1, h2, h3, hno], ?_, ?_⟩
        · intro h hh
          simp [is_duplicate, h1, h2, h3, hno, hh]
        · intro _
          simp [is_duplicate, h1, h2, h3, hno]

/-- Lift of the preceding lemma over a whole batch: without a cleanup
trigger, the cleanup timestamp is unchanged and the in-process hash set
only grows. -/
theorem process_news_items_hashes (env : PipelineEnv) (items : List NewsItem)
    (s : PipelineState) (hclean : env.now - s.dup.last_cleanup ≤ 3600) :
    (process_news_items env s items).snd.snd.dup.last_cleanup = s.dup.last_cleanup ∧
    ∀ h, h ∈ s.dup.recent_hashes →
      h ∈ (process_news_items env s items).snd.snd.dup.recent_hashes := by
  induction items generalizing s with
  | nil => exact ⟨rfl, fun h hh => hh⟩
  | cons item rest ih =>
    have hdup := (process_one_cases env s item).2.1
    have hstep := is_duplicate_no_cleanup s.dup s.db env.now item hclean
    have hlast : (process_one env s item).snd.snd.dup.last_cleanup = s.dup.last_cleanup := by
      rw [hdup]
      exact hstep.1
    have hclean2 : env.now - (process_one env s item).snd.snd.dup.last_cleanup ≤ 3600 := by
      rw [hlast]
      exact hclean
    obtain ⟨ih1, ih2⟩ := ih (process_one env s item).snd.snd hclean2
    constructor
    · show (process_news_items env (process_one env s item).snd.snd rest).snd.snd.dup.last_cleanup
        = s.dup.last_cleanup
      rw [ih1, hlast]
    · intro h hh
      show h ∈ (process_news_items env (process_one env s item).snd.snd rest).snd.snd.dup.recent_hashes
      refine ih2 h ?_
      rw [hdup]
      exact hstep.2.1 h hh

/-- A candidate whose hash is already in the in-process set is decided a
duplicate through the cache, before any store lookup. -/
theorem process_one_cache_hit (env : PipelineEnv) (s : PipelineState) (item : NewsItem)
    (h : item.hash ∈ s.dup.recent_hashes) :
    (process_one env s item).fst = DupDecision.cacheHit := by
  rw [(process_one_cases env s item).1]
  simp [is_duplicate, h]

/-- A batch over a concatenation runs the first part, then the second
part from the state the first part produced. -/
theorem process_news_items_append (env : PipelineEnv) (l1 l2 : List NewsItem)
    (s : PipelineState) :
    process_news_items env s (l1 ++ l2) =
      ((process_news_items env s l1).fst ++
        (process_news_items env (process_news_items env s l1).snd.snd l2).fst,
       (process_news_items env s l1).snd.fst ++
        (process_news_items env (process_news_items env s l1).snd.snd l2).snd.fst,
       (process_news_items env (process_news_items env s l1).snd.snd l2).snd.snd) := by
  induction l1 generalizing s with
  | nil => simp [process_news_items]
  | cons x rest ih =>
    simp [process_news_items, ih, List.append_assoc]

/-- Content for the C6 counterexample, second candidate. -/
def c6_body2 : String :=
  "his body text is long enough to pass the fifty character validity gate."

/-- First candidate of the C6 counterexample. -/
def c6_item1 : NewsItem :=
  mkNewsItem "Breaking news today" ("T" ++ c6_body2) none none none none

/-- Second candidate of the C6 counterexample: different title and body,
same identity hash (the digest input, title plus 100-character snippet,
concatenates to the same string). -/
def c6_item2 : NewsItem :=
  mkNewsItem ("Breaking news today" ++ "T") c6_body2 none none none none

/-- Environment for the C6 counterexample: enrichment off, run time two
hours after the last cache cleanup. -/
def c6_env : PipelineEnv :=
  ⟨false, false, ⟨[]⟩, fun _ _ => ProviderOutcome.raises "off", 7200⟩

/-- Fresh state with a stale cleanup timestamp for the C6 counterexample. -/
def c6_s0 : PipelineState := ⟨⟨[], 0⟩, ⟨[], []⟩⟩

/-- C6 counterexample: two schema-valid candidates with identical
identity hash, ingested in the same run, both get persisted.  The first
not-duplicate check adds the hash and then the hourly cleanup (pending
since more than an hour) clears it in the same call, so the second
occurrence misses the in-process set; its title differs from the first
stored row (the digest input merely concatenates equally), so the
title check misses too, and a second row is created. -/
theorem c6_counterexample :
    c6_item1.hash = c6_item2.hash ∧
    validate_news_item c6_item1 = true ∧
    validate_news_item c6_item2 = true ∧
    (process_news_items c6_env c6_s0 [c6_item1, c6_item2]).fst =
      [DupDecision.notDup, DupDecision.notDup] ∧
    (process_news_items c6_env c6_s0 [c6_item1, c6_item2]).snd.snd.db.news.length = 2 := by
  refine ⟨by decide, by decide, by decide, by decide, by decide⟩

/-- C6 (amended): for a pair of candidates with identical identity hash
ingested in the same run, PROVIDED the hourly rolling cleanup does not
trigger during the run (it would clear the in-process set, including the
hash just added), at most one persisted record is created: if the first
occurrence is persisted, the second is decided a duplicate via the
in-process hash set.  The run trace decomposes around the two
occurrences as stated. -/
theorem c6_dedup_idempotence (env : PipelineEnv) (s : PipelineState)
    (pre mid post : List NewsItem) (a b : NewsItem)
    (hhash : a.hash = b.hash)
    (hclean : env.now - s.dup.last_cleanup ≤ 3600)
    (s1 : PipelineState) (hs1 : s1 = (process_news_items env s pre).snd.snd)
    (s2 : PipelineState) (hs2 : s2 = (process_one env s1 a).snd.snd)
    (s3 : PipelineState) (hs3 : s3 = (process_news_items env s2 mid).snd.snd) :
    ((process_news_items env s (pre ++ a :: mid ++ b :: post)).fst =
      (process_news_items env s pre).fst ++ (process_one env s1 a).fst ::
        ((process_news_items env s2 mid).fst ++ (process_one env s3 b).fst ::
          (process_news_items env (process_one env s3 b).snd.snd post).fst)) ∧
    ((process_one env s1 a).fst = DupDecision.notDup →
      (process_one env s3 b).fst = DupDecision.cacheHit) ∧
    ¬((process_one env s1 a).fst = DupDecision.notDup ∧
      (process_one env s3 b).fst = DupDecision.notDup) := by
  have hpre := process_news_items_hashes env pre s hclean
  have hclean1 : env.now - s1.dup.last_cleanup ≤ 3600 := by
    rw [hs1, hpre.1]
    exact hclean
  have hfst := (process_one_cases env s1 a).1
  have hdup := (process_one_cases env s1 a).2.1
  have hstep := is_duplicate_no_cleanup s1.dup s1.db env.now a hclean1
  have himpl : (process_one env s1 a).fst = DupDecision.notDup →
      (process_one env s3 b).fst = DupDecision.cacheHit := by
    intro ha
    have hmem : a.hash ∈ (process_one env s1 a).snd.snd.dup.recent_hashes := by
      rw [hdup]
      refine hstep.2.2 ?_
      rw [← hfst]
      exact ha
    have hlast2 : (process_one env s1 a).snd.snd.dup.last_cleanup = s1.dup.last_cleanup := by
      rw [hdup]
      exact hstep.1
    have hclean2 : env.now - (process_one env s1 a).snd.snd.dup.last_cleanup ≤ 3600 := by
      rw [hlast2]
      exact hclean1
    have hmid := process_news_items_hashes env mid (process_one env s1 a).snd.snd hclean2
    have hmem3 : b.hash ∈ s3.dup.recent_hashes := by
      rw [hs3, hs2, ← hhash]
      exact hmid.2 a.hash hmem
    exact process_one_cache_hit env s3 b hmem3
  refine ⟨?_, himpl, ?_⟩
  · have hlist : pre ++ a :: mid ++ b :: post = pre ++ ((a :: mid) ++ (b :: post)) := by
      simp
    rw [hlist]
    rw [process_news_items_append env pre ((a :: mid) ++ (b :: post)) s]
    rw [← hs1]
    rw [process_news_items_append env (a :: mid) (b :: post) s1]
    rw [hs3, hs2]
    rfl
  · rintro ⟨h1, h2⟩
    have hc := himpl h1
    rw [hc] at h2
    exact absurd h2 (by decide)

/-- Candidate for the C6 witness. -/
def c6w_item : NewsItem :=
  mkNewsItem "Свежая новость часа"
    "Содержание свежей новости, достаточно длинное для проверки." none none none none

/-- Environment for the C6 witness: enrichment off, run time shortly
after the last cleanup, so no cleanup triggers. -/
def c6w_env : PipelineEnv :=
  ⟨false, false, ⟨[]⟩, fun _ _ => ProviderOutcome.raises "off", 10⟩

/-- Fresh pipeline state for the C6 witness. -/
def c6w_s0 : PipelineState := ⟨⟨[], 0⟩, ⟨[], []⟩⟩

/-- Witness for C6: the same candidate ingested twice in one run with a
fresh cleanup timestamp — the no-cleanup and first-occurrence-created
hypotheses are discharged concretely and the second occurrence hits the
in-process hash set. -/
theorem c6_dedup_idempotence_witness :
    (process_one c6w_env (process_one c6w_env c6w_s0 c6w_item).snd.snd c6w_item).fst =
      DupDecision.cacheHit := by
  have h := c6_dedup_idempotence c6w_env c6w_s0 [] [] [] c6w_item c6w_item rfl (by decide)
    c6w_s0 rfl (process_one c6w_env c6w_s0 c6w_item).snd.snd rfl
    (process_one c6w_env c6w_s0 c6w_item).snd.snd rfl
  exact h.2.1 (by decide)

/-! ### Page-scrape extraction (`HTMLParser` in src/parsers/html_parser.py) -/

/-- The scraping selector map of a source (`parsing_config`): which of
the keys `news_list`, `title`, `content` are configured. -/
structure ParsingConfig where
  news_list : Option String
  title : Option String
  content : Option String
  deriving DecidableEq, Repr

/-- Abstraction of a fetched page: `select_extract sel` models
`soup.select(sel)` followed by `_extract_news_from_element` on each hit
(`none` when extraction fails), and `individual_items` models the output
of `_parse_individual_elements` for the configured title/content pair. -/
structure Soup where
  select_extract : String → List (Option NewsItem)
  individual_items : List NewsItem

/-- `HTMLParser._parse_news_list`: every successfully extracted element
of the configured list selector, with no validity filtering here. -/
def parse_news_list (soup : Soup) (sel : String) : List NewsItem :=
  (soup.select_extract sel).filterMap id

/-- The fixed selector list of `HTMLParser._parse_auto_detect`. -/
def potential_selectors : List String :=
  ["article", ".news-item", ".article", ".post", ".story",
   "[class*=\"news\"]", "[class*=\"article\"]"]

/-- Valid records one auto-detect selector yields: extracted elements
that pass `is_valid`. -/
def valid_items_for (soup : Soup) (sel : String) : List NewsItem :=
  ((soup.select_extract sel).filterMap id).filter (fun i => i.is_valid)

/-- The selector loop of `_parse_auto_detect`: try selectors in order,
stop at the first one that produced at least one valid record. -/
def parse_auto_detect_go (soup : Soup) : List String → List NewsItem
  | [] => []
  | sel :: rest =>
    let found := valid_items_for soup sel
    if found.isEmpty then parse_auto_detect_go soup rest else found

/-- `HTMLParser._parse_auto_detect`. -/
def parse_auto_detect (soup : Soup) : List NewsItem :=
  parse_auto_detect_go soup potential_selectors

/-- `HTMLParser._extract_news_from_soup`: an if/elif/else on the
CONFIGURED selectors — tier (a) when a list selector is configured, tier
(b) when both a title and a content selector are configured, tier (c)
otherwise. -/
def extract_news_from_soup (cfg : ParsingConfig) (soup : Soup) : List NewsItem :=
  if cfg.news_list.isSome then parse_news_list soup (cfg.news_list.getD "")
  else if cfg.title.isSome && cfg.content.isSome then soup.individual_items
  else parse_auto_detect soup

/-- The auto-detect loop returns the valid records of the first selector
producing any, and the empty list when none does. -/
theorem parse_auto_detect_go_first (soup : Soup) (sels : List String) :
    parse_auto_detect_go soup sels =
      ((sels.map (valid_items_for soup)).find? (fun l => !l.isEmpty)).getD [] := by
  induction sels with
  | nil => rfl
  | cons sel rest ih =>
    by_cases h : (valid_items_for soup sel).isEmpty = true
    · simp [parse_auto_detect_go, h, List.find?_cons, ih]
    · rw [Bool.not_eq_true] at h
      simp [parse_auto_detect_go, h, List.find?_cons]

/-! ### Claim C7: three-tier extraction strategy -/

/-- A valid record for the C7 counterexample. -/
def c7_good : NewsItem :=
  ⟨"Подробный заголовок статьи",
   "Текст статьи, достаточно длинный, чтобы пройти проверку валидности записи.",
   none, none, none, none,
   create_hash "Подробный заголовок статьи"
     "Текст статьи, достаточно длинный, чтобы пройти проверку валидности записи."⟩

/-- A page on which the configured list selector matches nothing but the
generic `article` selector yields a valid record. -/
def c7_soup : Soup :=
  ⟨fun sel => if sel == "article" then [some c7_good] else [], []⟩

/-- A configuration with a list selector, for the C7 counterexample. -/
def c7_cfg : ParsingConfig := ⟨some "ul.news-feed", none, none⟩

/-- C7 counterexample: with a configured list selector that yields zero
records, extraction returns the empty list and never moves to the next
tier, although the heuristic tier would have found a valid record — the
claim says the extractor moves to the next tier until one yields at least
one valid record. -/
theorem c7_counterexample :
    extract_news_from_soup c7_cfg c7_soup = [] ∧
    parse_auto_detect c7_soup = [c7_good] ∧
    c7_good.is_valid = true := by
  refine ⟨rfl, by decide, by decide⟩

/-- C7 (amended): the extractor selects exactly one tier from the
configuration — the list-selector tier when `news_list` is configured,
else the title+content tier when both of those selectors are configured,
else the heuristic tier — and never falls through to a later tier when
the selected tier yields no records; within the heuristic tier the fixed
selector list is tried in order, stopping at the first selector that
produces at least one valid record. -/
theorem c7_extraction_tiers (cfg : ParsingConfig) (soup : Soup) :
    (∀ sel, cfg.news_list = some sel →
      extract_news_from_soup cfg soup = parse_news_list soup sel) ∧
    (cfg.news_list = none → cfg.title.isSome = true → cfg.content.isSome = true →
      extract_news_from_soup cfg soup = soup.individual_items) ∧
    (cfg.news_list = none → (cfg.title.isSome && cfg.content.isSome) = false →
      extract_news_from_soup cfg soup = parse_auto_detect soup) ∧
    parse_auto_detect soup =
      ((potential_selectors.map (valid_items_for soup)).find?
        (fun l => !l.isEmpty)).getD [] := by
  refine ⟨?_, ?_, ?_, parse_auto_detect_go_first soup potential_selectors⟩
  · intro sel hsel
    simp [extract_news_from_soup, hsel]
  · intro h1 h2 h3
    simp [extract_news_from_soup, h1, h2, h3]
  · intro h1 h2
    simp [extract_news_from_soup, h1, h2]

/-- Soup for the C7 witness. -/
def c7w_soup : Soup := ⟨fun _ => [], [c7_good]⟩

/-- Witness for C7: the three configuration hypotheses of the amended
theorem are discharged at concrete configurations over one page. -/
theorem c7_extraction_tiers_witness :
    extract_news_from_soup ⟨some "div.feed", none, none⟩ c7w_soup =
      parse_news_list c7w_soup "div.feed" ∧
    extract_news_from_soup ⟨none, some "h2", some "p.body"⟩ c7w_soup =
      c7w_soup.individual_items ∧
    extract_news_from_soup ⟨none, some "h2", none⟩ c7w_soup =
      parse_auto_detect c7w_soup := by
  refine ⟨?_, ?_, ?_⟩
  · exact (c7_extraction_tiers ⟨some "div.feed", none, none⟩ c7w_soup).1 _ rfl
  · exact (c7_extraction_tiers ⟨none, some "h2", some "p.body"⟩ c7w_soup).2.1 rfl rfl rfl
  · exact (c7_extraction_tiers ⟨none, some "h2", none⟩ c7w_soup).2.2.1 rfl (by decide)

/-! ### Cleanup job (`TaskScheduler` in src/scheduler/task_scheduler.py) -/

/-- A row of the `ai_processing_logs` table. -/
structure AIProcessingLogRow where
  news_id : Nat
  ai_provider : String
  success : Bool
  created_at : Int
  deriving DecidableEq, Repr

/-- `TaskScheduler._cleanup_old_news`: delete rows older than the cutoff
whose status is published or rejected; keep everything else untouched. -/
def cleanup_old_news (days : Int) (now : Int) (rows : List News) : List News :=
  rows.filter (fun r =>
    !(decide (r.created_at < now - days * 86400) &&
      (r.status == "published" || r.status == "rejected")))

/-- `TaskScheduler._cleanup_ai_logs`: delete log rows older than the
cutoff. -/
def cleanup_ai_logs (days : Int) (now : Int) (rows : List AIProcessingLogRow) :
    List AIProcessingLogRow :=
  rows.filter (fun r => !decide (r.created_at < now - days * 86400))

/-- `TaskScheduler._cleanup_old_urls`: delete seen-URL rows older than
the cutoff. -/
def cleanup_old_urls (days : Int) (now : Int) (rows : List ParsedURL) : List ParsedURL :=
  rows.filter (fun r => !decide (r.created_at < now - days * 86400))

/-- `TaskScheduler._cleanup_job_wrapper`: news at 30 days, enrichment
attempt logs at 7 days, seen URLs at 60 days. -/
def cleanup_job (now : Int) (news : List News) (logs : List AIProcessingLogRow)
    (urls : List ParsedURL) :
    List News × List AIProcessingLogRow × List ParsedURL :=
  (cleanup_old_news 30 now news, cleanup_ai_logs 7 now logs, cleanup_old_urls 60 now urls)

/-! ### Claim C8: cleanup retention thresholds -/

/-- C8: a cleanup run keeps exactly the news rows that are NOT (older
than 30 days with status published or rejected), keeps exactly the
attempt-log rows at most 7 days old and the seen-URL rows at most 60
days old, and the kept rows are the original rows, unchanged and in
order (sublists of the inputs). -/
theorem c8_cleanup_retention (now : Int) (news : List News)
    (logs : List AIProcessingLogRow) (urls : List ParsedURL) :
    (∀ r : News, r ∈ (cleanup_job now news logs urls).fst ↔
      r ∈ news ∧ ¬(r.created_at < now - 30 * 86400 ∧
        (r.status = "published" ∨ r.status = "rejected"))) ∧
    (∀ r : AIProcessingLogRow, r ∈ (cleanup_job now news logs urls).snd.fst ↔
      r ∈ logs ∧ ¬(r.created_at < now - 7 * 86400)) ∧
    (∀ r : ParsedURL, r ∈ (cleanup_job now news logs urls).snd.snd ↔
      r ∈ urls ∧ ¬(r.created_at < now - 60 * 86400)) ∧
    List.Sublist (cleanup_job now news logs urls).fst news ∧
    List.Sublist (cleanup_job now news logs urls).snd.fst logs ∧
    List.Sublist (cleanup_job now news logs urls).snd.snd urls := by
  refine ⟨?_, ?_, ?_, List.filter_sublist _, List.filter_sublist _, List.filter_sublist _⟩
  · intro r
    simp only [cleanup_job, cleanup_old_news, List.mem_filter]
    constructor
    · rintro ⟨hm, hp⟩
      refine ⟨hm, fun hcon => ?_⟩
      rcases hcon with ⟨hd, hs⟩
      have hc : (decide (r.created_at < now - 30 * 86400) &&
          (r.status == "published" || r.status == "rejected")) = true := by
        rw [decide_eq_true hd]
        rcases hs with hs | hs <;> simp [hs]
      rw [hc] at hp
      simp at hp
    · rintro ⟨hm, hno⟩
      refine ⟨hm, ?_⟩
      cases hc : (decide (r.created_at < now - 30 * 86400) &&
          (r.status == "published" || r.status == "rejected")) with
      | false => simp [hc]
      | true =>
        exfalso
        simp only [Bool.and_eq_true, decide_eq_true_eq, Bool.or_eq_true,
          beq_iff_eq] at hc
        exact hno hc
  · intro r
    simp [cleanup_job, cleanup_ai_logs, List.mem_filter]
  · intro r
    simp [cleanup_job, cleanup_old_urls, List.mem_filter]

end NewsCore
